import Mathlib

/-!
Shallow embedding of data_workbench/cleaning.py (class DataCleaner).

Dates are pandas Timestamps at day granularity; we model them as calendar
triples (year, month, day) and linearize them with the standard rata-die
day count, so that Timestamp subtraction becomes integer subtraction of
day numbers.  Timedeltas at day granularity are modelled as Int (days).
Missing values (NaT / NaN) are modelled with Option.
-/

/-- Gregorian leap-year test. -/
def isLeap (y : Nat) : Bool :=
  (y % 4 == 0 && !(y % 100 == 0)) || (y % 400 == 0)

/-- Number of days in a month of a given year (0 for an invalid month). -/
def daysInMonth (y m : Nat) : Nat :=
  match m with
  | 1 => 31
  | 2 => if isLeap y then 29 else 28
  | 3 => 31
  | 4 => 30
  | 5 => 31
  | 6 => 30
  | 7 => 31
  | 8 => 31
  | 9 => 30
  | 10 => 31
  | 11 => 30
  | 12 => 31
  | _ => 0

/-- A calendar date, as held by a pandas Timestamp at day granularity. -/
structure Date where
  year : Nat
  month : Nat
  day : Nat
  deriving DecidableEq, Repr

/-- Cumulative day count of the months strictly before month m (1-based). -/
def daysBeforeMonth (y m : Nat) : Nat :=
  (List.range (m - 1)).foldl (fun acc i => acc + daysInMonth y (i + 1)) 0

/-- Day-of-year of a date, starting at 1 for January 1st. -/
def dayOfYear (d : Date) : Nat :=
  daysBeforeMonth d.year d.month + d.day

/-- Rata-die day number of a date (valid for year at least 1, which covers
every pandas Timestamp).  Timestamp subtraction is the difference of these. -/
def rataDie (d : Date) : Nat :=
  365 * (d.year - 1) + (d.year - 1) / 4 - (d.year - 1) / 100 + (d.year - 1) / 400
    + dayOfYear d

/-- Timestamp subtraction a - b, as a Timedelta in whole days.  A pandas
Timedelta is int64 nanoseconds and holds at most about 106751 whole days;
beyond that the subtraction raises an overflow error instead of producing a
value.  The model uses unbounded Int; every concrete input used in the
theorems below keeps the difference within the representable range. -/
def dsub (a b : Date) : Int :=
  (rataDie a : Int) - (rataDie b : Int)

/-- Embeds DataCleaner._swap_day_month: pd.Timestamp(year=date.year,
month=date.day, day=date.month).  The constructor raises ValueError when the
new month (the old day) is not in 1..12 or the new day is out of range for
that month; the caller catches ValueError, so we return Option. -/
def _swap_day_month (d : Date) : Option Date :=
  if 1 ≤ d.day ∧ d.day ≤ 12 ∧ 1 ≤ d.month ∧ d.month ≤ daysInMonth d.year d.day then
    some ⟨d.year, d.day, d.month⟩
  else
    none

/-- The transient enum in _best_time_fix.  (The Python enum's numeric values
are never used; what matters is the order of the five if-statements, which is
NONE, SWAP, ORDER, SHIP, BOTH.) -/
inductive DateFixType where
  | NONE
  | SWAP
  | ORDER
  | SHIP
  | BOTH
  deriving DecidableEq, Repr

/-- Position of a candidate in the evaluation order of the five
if-statements of _best_time_fix (lines 112-130 of cleaning.py). -/
def rank : DateFixType → Nat
  | .NONE => 0
  | .SWAP => 1
  | .ORDER => 2
  | .SHIP => 3
  | .BOTH => 4

/-- no_change_time = ship_date - order_date. -/
def noChangeTime (o s : Date) : Int := dsub s o

/-- swap_time = order_date - ship_date. -/
def swapTime (o s : Date) : Int := dsub o s

/-- order_reformat_time: preset to Timedelta(days=-1), overwritten with
ship_date - reformated_order_date when the swap is valid. -/
def orderReformatTime (o s : Date) : Int :=
  match _swap_day_month o with
  | some r => dsub s r
  | none => -1

/-- ship_reformat_time: preset to Timedelta(days=-1), overwritten with
reformated_ship_date - order_date when the swap is valid. -/
def shipReformatTime (o s : Date) : Int :=
  match _swap_day_month s with
  | some r => dsub r o
  | none => -1

/-- both_reformat_time: preset to Timedelta(days=-1), overwritten with
reformated_ship_date - reformated_order_date when both swaps are valid. -/
def bothReformatTime (o s : Date) : Int :=
  match _swap_day_month o, _swap_day_month s with
  | some ro, some rs => dsub rs ro
  | _, _ => -1

/-- The candidate duration each of the five if-statements tests. -/
def candDur (o s : Date) : DateFixType → Int
  | .NONE => noChangeTime o s
  | .SWAP => swapTime o s
  | .ORDER => orderReformatTime o s
  | .SHIP => shipReformatTime o s
  | .BOTH => bothReformatTime o s

/-- One if-statement of the selection chain: overwrite (best_pick, fix) when
the candidate is non-negative and strictly below the current best_pick. -/
def pick (d : Int) (f : DateFixType) (st : Int × Option DateFixType) :
    Int × Option DateFixType :=
  if 0 ≤ d ∧ d < st.1 then (d, some f) else st

/-- The SWAP if-statement carries an extra truthiness test "and best_pick"
(line 116); bool(Timedelta(0)) is False, so it amounts to best_pick being
nonzero. -/
def pickSwap (d : Int) (st : Int × Option DateFixType) :
    Int × Option DateFixType :=
  if 0 ≤ d ∧ d < st.1 ∧ st.1 ≠ 0 then (d, some .SWAP) else st

/-- The whole selection chain of _best_time_fix: best_pick starts at
Timedelta(days=99999) and fix starts unbound (modelled as none); the five
if-statements run in order NONE, SWAP, ORDER, SHIP, BOTH. -/
def candChain (n sw od sh bo : Int) : Int × Option DateFixType :=
  pick bo .BOTH (pick sh .SHIP (pick od .ORDER (pickSwap sw (pick n .NONE (99999, none)))))

/-- (best_pick, fix) as computed by _best_time_fix for a row with the given
order and ship dates. -/
def bestPickFix (o s : Date) : Int × Option DateFixType :=
  candChain (noChangeTime o s) (swapTime o s) (orderReformatTime o s)
    (shipReformatTime o s) (bothReformatTime o s)

/-- The final match of _best_time_fix, returning the committed
(order_date, ship_date) pair.  When no if-statement ran, the local variable
fix was never bound and the match statement raises UnboundLocalError; the
NONE case falls into the catch-all arm (which only prints) and leaves the
dates as they are.  The reformatted date locals are bound exactly when the
corresponding swap succeeded. -/
def _best_time_fix (o s : Date) : Except String (Date × Date) :=
  match (bestPickFix o s).2 with
  | none => .error "UnboundLocalError: fix"
  | some .NONE => .ok (o, s)
  | some .SWAP => .ok (s, o)
  | some .ORDER =>
    match _swap_day_month o with
    | some r => .ok (r, s)
    | none => .error "UnboundLocalError: reformated_order_date"
  | some .SHIP =>
    match _swap_day_month s with
    | some r => .ok (o, r)
    | none => .error "UnboundLocalError: reformated_ship_date"
  | some .BOTH =>
    match _swap_day_month o, _swap_day_month s with
    | some ro, some rs => .ok (ro, rs)
    | _, _ => .error "UnboundLocalError: reformated date"

/-- A row as seen by fix_order_ship_dates: the two date cells and the derived
"Time Till Shipping" cell, each possibly missing (NaT). -/
structure ORow where
  order : Option Date
  ship : Option Date
  derived : Option Int
  deriving DecidableEq, Repr

/-- The value the derived column is recomputed to: ship - order, NaT when
either date is missing. -/
def derivedOf (r : ORow) : Option Int :=
  match r.ship, r.order with
  | some s, some o => some (dsub s o)
  | _, _ => none

/-- Step 1 of fix_order_ship_dates (line 35): df["Time Till Shipping"] =
df[ship] - df[order]. -/
def computeDerived (r : ORow) : ORow :=
  { r with derived := derivedOf r }

/-- self.day_threshold, set to 15 in DataCleaner.__init__. -/
def dayThreshold : Int := 15

/-- The fix_mask of lines 39-42: derived is not NaT and is negative or above
the threshold. -/
def selectedForFix (r : ORow) : Bool :=
  match r.derived with
  | some d => decide (d < 0) || decide (dayThreshold < d)
  | none => false

/-- Row-level effect of line 44: rows selected by the mask are replaced by
the result of _best_time_fix (which ends by recomputing the derived cell
from the committed dates, line 145); other rows are untouched. -/
def fixOne (r : ORow) : Except String ORow :=
  if selectedForFix r then
    match r.order, r.ship with
    | some o, some s =>
      (_best_time_fix o s).map (fun p => ⟨some p.1, some p.2, some (dsub p.2 p.1)⟩)
    | _, _ => .error "missing date in selected row"
  else
    .ok r

/-- Applies fixOne to every row; an exception raised for any row propagates
out of DataFrame.apply, aborting the whole call. -/
def fixRows : List ORow → Except String (List ORow)
  | [] => .ok []
  | r :: rest =>
    match fixOne r, fixRows rest with
    | .ok r', .ok rest' => .ok (r' :: rest')
    | .error e, _ => .error e
    | .ok _, .error e => .error e

/-- Embeds DataCleaner.fix_order_ship_dates: recompute the derived column
for every row, then rewrite the rows selected by the fix mask. -/
def fix_order_ship_dates (df : List ORow) : Except String (List ORow) :=
  fixRows (df.map computeDerived)

/-- True when every one of the five candidate durations (with invalid
reformats preset to -1) is negative: the premise of the unresolved-row
claim. -/
def noNonnegCandidate (o s : Date) : Bool :=
  decide (candDur o s .NONE < 0) && decide (candDur o s .SWAP < 0)
    && decide (candDur o s .ORDER < 0) && decide (candDur o s .SHIP < 0)
    && decide (candDur o s .BOTH < 0)

/-- Helper view of the five candidate durations fed to the chain. -/
def durAux (n sw od sh bo : Int) : DateFixType → Int
  | .NONE => n
  | .SWAP => sw
  | .ORDER => od
  | .SHIP => sh
  | .BOTH => bo

/-- The pair of years held by the two date cells of a row. -/
def yearsOf (r : ORow) : Option Nat × Option Nat :=
  (r.order.map Date.year, r.ship.map Date.year)

/-!
Relational consistency and imputation (check_order_consistency and
fill_blank_relative).  A dataframe is a list of rows; a row maps a column
name to an optional cell value (none models NaN after normalisation).
-/

/-- A column name. -/
abbrev Col := String

/-- A row of the relational part of the cleaner. -/
def RRow (V : Type) := Col → Option V

/-- Series.nunique(dropna=True) of one column over a set of rows: the
number of distinct non-missing values. -/
def nuniqueDropna {V : Type} [DecidableEq V] (rows : List (RRow V)) (c : Col) : Nat :=
  ((rows.filterMap (fun r => r c)).dedup).length

/-- The group keys produced by df.groupby(key_col, dropna=False): every
distinct value of the key column, the missing key (none) included; all
rows with a missing key fall into the single none group. -/
def groupKeys {V : Type} [DecidableEq V] (df : List (RRow V)) (key : Col) :
    List (Option V) :=
  (df.map (fun r => r key)).dedup

/-- The rows of one key group. -/
def groupRows {V : Type} [DecidableEq V] (df : List (RRow V)) (key : Col)
    (k : Option V) : List (RRow V) :=
  df.filter (fun r => decide (r key = k))

/-- One row of the inconsistency mask (lines 237-240): a group is flagged
when any check column has more than one distinct non-missing value. -/
def isInconsistentGroup {V : Type} [DecidableEq V] (df : List (RRow V)) (key : Col)
    (cs : List Col) (k : Option V) : Bool :=
  cs.any (fun c => decide (1 < nuniqueDropna (groupRows df key k) c))

/-- inconsistent_orders: the group keys whose group is flagged. -/
def inconsistentKeys {V : Type} [DecidableEq V] (df : List (RRow V)) (key : Col)
    (cs : List Col) : List (Option V) :=
  (groupKeys df key).filter (isInconsistentGroup df key cs)

/-- The outcome of check_order_consistency: the Python function returns the
literal True when every group is consistent and the set of inconsistent key
values otherwise. -/
inductive ConsistencyResult (V : Type) where
  | allConsistent : ConsistencyResult V
  | inconsistent : List (Option V) → ConsistencyResult V

/-- Embeds DataCleaner.check_order_consistency (the printing side effects
carry no data that the return value does not). -/
def check_order_consistency {V : Type} [DecidableEq V] (df : List (RRow V))
    (key : Col) (cs : List Col) : ConsistencyResult V :=
  if (inconsistentKeys df key cs).isEmpty then .allConsistent
  else .inconsistent (inconsistentKeys df key cs)

/-- df[col].isna() at one row. -/
def blankAt {V : Type} (r : RRow V) (c : Col) : Bool := (r c).isNone

/-- df[relative_col_names].notna().all(axis=1) at one row. -/
def relPresent {V : Type} (r : RRow V) (rels : List Col) : Bool :=
  rels.all (fun c => (r c).isSome)

/-- The tuple of relative-column values of a row, the merge key. -/
def tupleOf {V : Type} (r : RRow V) (rels : List Col) : List (Option V) :=
  rels.map (fun c => r c)

/-- to_fill_mask: target blank and every relative column present. -/
def toFillMask {V : Type} (r : RRow V) (target : Col) (rels : List Col) : Bool :=
  blankAt r target && relPresent r rels

/-- drop_duplicates(subset=relative_col_names): keep the first row seen for
each relative-column tuple. -/
def dropDupFirst {V : Type} [DecidableEq V] (rels : List Col) :
    List (List (Option V)) → List (RRow V) → List (RRow V)
  | _, [] => []
  | seen, r :: rest =>
    if tupleOf r rels ∈ seen then dropDupFirst rels seen rest
    else r :: dropDupFirst rels (tupleOf r rels :: seen) rest

/-- lookup_df (lines 296-298): rows with the target present and every
relative column present, deduplicated by relative tuple. -/
def lookupDf {V : Type} [DecidableEq V] (df : List (RRow V)) (target : Col)
    (rels : List Col) : List (RRow V) :=
  dropDupFirst rels [] (df.filter (fun r => !(blankAt r target) && relPresent r rels))

/-- The left merge on the relative columns followed by fillna: the fillable
row's own target is NaN, so the filled value is the matched lookup row's
target value, or NaN when its tuple has no match. -/
def mergedFillValue {V : Type} [DecidableEq V] (lk : List (RRow V)) (rels : List Col)
    (target : Col) (r : RRow V) : Option V :=
  match lk.find? (fun q => decide (tupleOf q rels = tupleOf r rels)) with
  | some q => q target
  | none => none

/-- Write one cell of a row (df.loc assignment at one row and column). -/
def setCell {V : Type} (r : RRow V) (c : Col) (v : Option V) : RRow V :=
  fun c' => if c' = c then v else r c'

/-- Embeds DataCleaner.fill_blank_relative: return the frame unchanged when
no row is fillable or the lookup is empty; otherwise set the target cell of
each fillable row to its merged fill value. -/
def fill_blank_relative {V : Type} [DecidableEq V] (df : List (RRow V))
    (target : Col) (rels : List Col) : List (RRow V) :=
  if !(df.any (fun r => toFillMask r target rels)) then df
  else if (lookupDf df target rels).isEmpty then df
  else
    df.map (fun r =>
      if toFillMask r target rels then
        setCell r target (mergedFillValue (lookupDf df target rels) rels target r)
      else r)

/-- Specification-facing description of the fill value: the target value of
the first row of the frame whose target is present, whose relative columns
are all present, and whose relative tuple matches. -/
def firstSourceValue {V : Type} [DecidableEq V] (df : List (RRow V)) (target : Col)
    (rels : List Col) (r : RRow V) : Option V :=
  match (df.filter (fun q => !(blankAt q target) && relPresent q rels)).find?
      (fun q => decide (tupleOf q rels = tupleOf r rels)) with
  | some q => q target
  | none => none

theorem durAux_candDur (o s : Date) (c : DateFixType) :
    durAux (noChangeTime o s) (swapTime o s) (orderReformatTime o s)
      (shipReformatTime o s) (bothReformatTime o s) c = candDur o s c := by
  cases c <;> rfl

theorem chain_commit_spec (n sw od sh bo b : Int) (f : DateFixType)
    (h : candChain n sw od sh bo = (b, some f)) :
    durAux n sw od sh bo f = b ∧ 0 ≤ b ∧ b < 99999 ∧
      (∀ c, 0 ≤ durAux n sw od sh bo c → b ≤ durAux n sw od sh bo c) ∧
      (∀ c, rank c < rank f → 0 ≤ durAux n sw od sh bo c → b < durAux n sw od sh bo c) := by
  unfold candChain pick pickSwap at h
  split_ifs at h <;> dsimp only at * <;>
    (injection h with hb hf) <;>
    first
      | exact Option.noConfusion hf
      | (injection hf with hf ; subst hf ; subst hb ;
         refine ⟨rfl, by omega, by omega, ?_, ?_⟩ <;>
           (intro c ; cases c) <;>
           simp only [durAux, rank] at * <;> omega)

theorem chain_none_spec (n sw od sh bo b : Int)
    (h : candChain n sw od sh bo = (b, none)) :
    (n < 0 ∨ 99999 ≤ n) ∧ (sw < 0 ∨ 99999 ≤ sw) ∧ (od < 0 ∨ 99999 ≤ od)
      ∧ (sh < 0 ∨ 99999 ≤ sh) ∧ (bo < 0 ∨ 99999 ≤ bo) := by
  unfold candChain pick pickSwap at h
  split_ifs at h <;> dsimp only at * <;>
    (injection h with hb hf) <;>
    first
      | exact Option.noConfusion hf
      | refine ⟨by omega, by omega, by omega, by omega, by omega⟩

theorem swap_day_month_year (d r : Date) (h : _swap_day_month d = some r) :
    r.year = d.year := by
  unfold _swap_day_month at h
  split_ifs at h
  · exact (Option.some.inj h) ▸ rfl
  

theorem dsub_antisymm (a b : Date) : dsub a b = -(dsub b a) := by
  unfold dsub; ring

theorem best_time_fix_commits (o s : Date) (h : (bestPickFix o s).2.isSome) :
    ∃ p, _best_time_fix o s = .ok p := by
  obtain ⟨f, hf⟩ := Option.isSome_iff_exists.mp h
  have hpair : bestPickFix o s = ((bestPickFix o s).1, some f) := by
    rw [← hf]
  have hspec := chain_commit_spec _ _ _ _ _ _ _ hpair
  rw [durAux_candDur] at hspec
  unfold _best_time_fix
  rw [hf]
  cases f with
  | NONE => exact ⟨_, rfl⟩
  | SWAP => exact ⟨_, rfl⟩
  | ORDER =>
    cases hsw : _swap_day_month o with
    | some r => exact ⟨_, rfl⟩
    | none =>
      exfalso
      have : candDur o s .ORDER = -1 := by
        unfold candDur orderReformatTime; rw [hsw]
      omega
  | SHIP =>
    cases hsw : _swap_day_month s with
    | some r => exact ⟨_, rfl⟩
    | none =>
      exfalso
      have : candDur o s .SHIP = -1 := by
        unfold candDur shipReformatTime; rw [hsw]
      omega
  | BOTH =>
    cases hsw : _swap_day_month o with
    | some ro =>
      cases hsw2 : _swap_day_month s with
      | some rs => exact ⟨_, rfl⟩
      | none =>
        exfalso
        have : candDur o s .BOTH = -1 := by
          unfold candDur bothReformatTime; rw [hsw, hsw2]
        omega
    | none =>
      exfalso
      have : candDur o s .BOTH = -1 := by
        unfold candDur bothReformatTime; rw [hsw]
      omega

theorem fixRows_ok_forall2 {l l' : List ORow} (h : fixRows l = .ok l') :
    List.Forall₂ (fun r r' => fixOne r = .ok r') l l' := by
  induction l generalizing l' with
  | nil =>
    unfold fixRows at h
    cases h
    exact List.Forall₂.nil
  | cons r rest ih =>
    unfold fixRows at h
    cases hr : fixOne r with
    | error e => rw [hr] at h; exact absurd h (by simp)
    | ok r' =>
      rw [hr] at h
      cases hrest : fixRows rest with
      | error e => rw [hrest] at h; exact absurd h (by simp)
      | ok rest' =>
        rw [hrest] at h
        cases h
        exact List.Forall₂.cons hr (ih hrest)

theorem fixRows_id (l : List ORow) (h : ∀ r ∈ l, selectedForFix r = false) :
    fixRows l = .ok l := by
  induction l with
  | nil => rfl
  | cons r rest ih =>
    have hr : fixOne r = .ok r := by
      unfold fixOne
      rw [h r (List.mem_cons_self r rest)]
      simp
    unfold fixRows
    rw [hr, ih (fun q hq => h q (List.mem_cons_of_mem r hq))]

theorem derivedOf_computeDerived (r : ORow) :
    derivedOf (computeDerived r) = derivedOf r := rfl

theorem computeDerived_id (r : ORow) (h : r.derived = derivedOf r) :
    computeDerived r = r := by
  cases r with
  | mk o s d =>
    unfold computeDerived
    simp only [ORow.mk.injEq, and_true, true_and]
    exact h.symm

theorem fixOne_selected_shape (r r' : ORow) (hsel : selectedForFix r = true)
    (h : fixOne r = .ok r') :
    ∃ o s p, r.order = some o ∧ r.ship = some s ∧ _best_time_fix o s = .ok p ∧
      r' = ⟨some p.1, some p.2, some (dsub p.2 p.1)⟩ := by
  unfold fixOne at h
  rw [hsel] at h
  simp only [if_true] at h
  cases ho : r.order with
  | none => rw [ho] at h; exact absurd h (by simp)
  | some o =>
    cases hs : r.ship with
    | none => rw [ho, hs] at h; exact absurd h (by simp)
    | some s =>
      rw [ho, hs] at h
      dsimp only at h
      cases hb : _best_time_fix o s with
      | error e => rw [hb] at h; exact absurd h (by simp [Except.map])
      | ok p =>
        rw [hb] at h
        simp only [Except.map] at h
        cases h
        exact ⟨o, s, p, rfl, rfl, hb, rfl⟩

theorem fixOne_unselected (r r' : ORow) (hsel : selectedForFix r = false)
    (h : fixOne r = .ok r') : r' = r := by
  unfold fixOne at h
  rw [hsel] at h
  simp only [Bool.false_eq_true, if_false] at h
  cases h
  rfl

theorem best_time_fix_shape (o s : Date) (p : Date × Date)
    (h : _best_time_fix o s = .ok p) :
    p = (o, s) ∨ p = (s, o) ∨
      (∃ ro, _swap_day_month o = some ro ∧ p = (ro, s)) ∨
      (∃ rs, _swap_day_month s = some rs ∧ p = (o, rs)) ∨
      (∃ ro rs, _swap_day_month o = some ro ∧ _swap_day_month s = some rs ∧
        p = (ro, rs)) := by
  unfold _best_time_fix at h
  cases hf : (bestPickFix o s).2 with
  | none => rw [hf] at h; exact absurd h (by simp)
  | some f =>
    rw [hf] at h
    cases f with
    | NONE =>
      injection h with h
      exact Or.inl h.symm
    | SWAP =>
      injection h with h
      exact Or.inr (Or.inl h.symm)
    | ORDER =>
      cases hsw : _swap_day_month o with
      | none => rw [hsw] at h; exact absurd h (by simp)
      | some ro =>
        rw [hsw] at h
        injection h with h
        exact Or.inr (Or.inr (Or.inl ⟨ro, rfl, h.symm⟩))
    | SHIP =>
      cases hsw : _swap_day_month s with
      | none => rw [hsw] at h; exact absurd h (by simp)
      | some rs =>
        rw [hsw] at h
        injection h with h
        exact Or.inr (Or.inr (Or.inr (Or.inl ⟨rs, rfl, h.symm⟩)))
    | BOTH =>
      cases hsw : _swap_day_month o with
      | none => rw [hsw] at h; exact absurd h (by simp)
      | some ro =>
        cases hsw2 : _swap_day_month s with
        | none => rw [hsw, hsw2] at h; exact absurd h (by simp)
        | some rs =>
          rw [hsw, hsw2] at h
          injection h with h
          exact Or.inr (Or.inr (Or.inr (Or.inr ⟨ro, rs, rfl, rfl, h.symm⟩)))

theorem forall2_right_mem {α β : Type} {R : α → β → Prop} :
    ∀ {l : List α} {l' : List β}, List.Forall₂ R l l' → ∀ b ∈ l', ∃ a ∈ l, R a b := by
  intro l l' h
  induction h with
  | nil => intro b hb; cases hb
  | cons hR _ ih =>
    intro b hb
    rcases List.mem_cons.mp hb with rfl | hb2
    · exact ⟨_, List.mem_cons_self _ _, hR⟩
    · obtain ⟨a, ha, hab⟩ := ih b hb2
      exact ⟨a, List.mem_cons_of_mem _ ha, hab⟩

/-- Pairwise characterization of a successful fix_order_ship_dates run:
each output row is the fixOne image of the derived-recomputed input row. -/
theorem fix_ok_forall2 (df df' : List ORow) (h : fix_order_ship_dates df = .ok df') :
    List.Forall₂ (fun r r' => fixOne (computeDerived r) = .ok r') df df' := by
  unfold fix_order_ship_dates at h
  have h2 := fixRows_ok_forall2 h
  rwa [List.forall₂_map_left_iff] at h2

theorem fixOne_derived_inv (r r' : ORow) (hr : r.derived = derivedOf r)
    (h : fixOne r = .ok r') : r'.derived = derivedOf r' := by
  cases hsel : selectedForFix r with
  | false =>
    rw [fixOne_unselected r r' hsel h]
    exact hr
  | true =>
    obtain ⟨o, s, p, ho, hs, hb, rfl⟩ := fixOne_selected_shape r r' hsel h
    rfl

theorem fix_derived_inv (df df' : List ORow) (h : fix_order_ship_dates df = .ok df') :
    ∀ r' ∈ df', r'.derived = derivedOf r' := by
  intro r' hr'
  obtain ⟨r, _, hone⟩ := forall2_right_mem (fix_ok_forall2 df df' h) r' hr'
  exact fixOne_derived_inv _ _ rfl hone

/-- C1 (failing input for the minimality claim): for the selected row
(order 1726-01-01, ship 2000-01-01) the NONE candidate duration is 100076
days - representable in a pandas Timedelta (the bound is about 106751
days), non-negative and above the threshold, so the row is selected and a
minimum non-negative candidate exists; but best_pick is initialized to the
99999-day sentinel, which is smaller, so no if-statement runs, fix stays
unbound, and the code raises UnboundLocalError instead of writing the
minimal candidate back. -/
theorem C1_minimality_sentinel_bug :
    0 ≤ noChangeTime ⟨1726, 1, 1⟩ ⟨2000, 1, 1⟩ ∧
      dayThreshold < noChangeTime ⟨1726, 1, 1⟩ ⟨2000, 1, 1⟩ ∧
      noChangeTime ⟨1726, 1, 1⟩ ⟨2000, 1, 1⟩ ≤ 106751 ∧
      fix_order_ship_dates [⟨some ⟨1726, 1, 1⟩, some ⟨2000, 1, 1⟩, none⟩]
        = .error "UnboundLocalError: fix" :=
  ⟨by decide, by decide, by decide, rfl⟩

/-- C2: in the candidate selection of _best_time_fix, a tied later candidate
never wins: if an earlier candidate (in the order NONE, SWAP, ORDER, SHIP,
BOTH) has an equal non-negative duration, the committed fix is not the later
one; and whenever a candidate is committed, every earlier candidate with a
non-negative duration has a strictly larger duration. -/
theorem C2_tie_break (o s : Date) (c₁ c₂ : DateFixType)
    (hnn : 0 ≤ candDur o s c₁) (heq : candDur o s c₁ = candDur o s c₂)
    (hr : rank c₁ < rank c₂) :
    (bestPickFix o s).2 ≠ some c₂ ∧
      ∀ c, (bestPickFix o s).2 = some c →
        ∀ c', rank c' < rank c → 0 ≤ candDur o s c' →
          candDur o s c < candDur o s c' := by
  have hmain : ∀ c, (bestPickFix o s).2 = some c →
      ∀ c', rank c' < rank c → 0 ≤ candDur o s c' →
        candDur o s c < candDur o s c' := by
    intro c hc c' hrc hnnc
    have hpair : bestPickFix o s = ((bestPickFix o s).1, some c) := by rw [← hc]
    have hspec := chain_commit_spec _ _ _ _ _ _ _ hpair
    simp only [durAux_candDur] at hspec
    have h1 := hspec.1
    have h2 := hspec.2.2.2.2 c' hrc hnnc
    omega
  refine ⟨?_, hmain⟩
  intro hc2
  have := hmain c₂ hc2 c₁ hr hnn
  omega

/-- Witness for C2: order 2020-01-01, ship 2020-03-01.  The NONE and ORDER
candidates tie at 60 days (the order date is a day/month fixed point), and
the committed fix is indeed not ORDER (it is SHIP, at 2 days). -/
theorem C2_tie_break_witness :
    (bestPickFix ⟨2020, 1, 1⟩ ⟨2020, 3, 1⟩).2 ≠ some DateFixType.ORDER :=
  (C2_tie_break ⟨2020, 1, 1⟩ ⟨2020, 3, 1⟩ .NONE .ORDER (by decide) (by decide)
    (by decide)).1

/-- C4: "for every selected row for which no candidate yields a non-negative
duration, the row is left unmutated and flagged unresolved", stated as a
material disjunction.  The left disjunct holds for every pair of dates: the
NONE and SWAP candidate durations are exact negatives of each other, so one
of them is always non-negative and the premise of the claim is never
satisfied (the claim is vacuously true of every reachable row).  The right
disjunct records what the final match does on a hypothetical such row: it
raises UnboundLocalError, which aborts apply before any assignment, so no
date is written and the failure is signalled rather than silent. -/
theorem C4_unresolvable_row (o s : Date) :
    noNonnegCandidate o s = false ∨
      _best_time_fix o s = .error "UnboundLocalError: fix" := by
  left
  unfold noNonnegCandidate
  simp only [candDur, noChangeTime, swapTime, dsub, Bool.and_eq_false_iff,
    decide_eq_false_iff_not, not_lt]
  omega

/-- C5: after a successful fix_order_ship_dates run, every row's derived
cell equals ship minus order (NaT when a date is missing), and every row
the fix mask did not select is exactly its input with the derived cell
freshly recomputed. -/
theorem C5_derived_equals_ship_minus_order (df df' : List ORow)
    (h : fix_order_ship_dates df = .ok df') :
    (∀ r' ∈ df', r'.derived = derivedOf r') ∧
      List.Forall₂ (fun r r' =>
        selectedForFix (computeDerived r) = false → r' = computeDerived r) df df' := by
  refine ⟨fix_derived_inv df df' h, ?_⟩
  exact (fix_ok_forall2 df df' h).imp
    (fun a b hab hsel => fixOne_unselected _ _ hsel hab)

/-- Witness for C5 on a one-row dataset that needs no fix. -/
theorem C5_witness :
    (∀ r' ∈ ([⟨some ⟨2020, 1, 1⟩, some ⟨2020, 1, 2⟩, some 1⟩] : List ORow),
        r'.derived = derivedOf r') ∧
      List.Forall₂ (fun r r' =>
          selectedForFix (computeDerived r) = false → r' = computeDerived r)
        [⟨some ⟨2020, 1, 1⟩, some ⟨2020, 1, 2⟩, none⟩]
        [⟨some ⟨2020, 1, 1⟩, some ⟨2020, 1, 2⟩, some 1⟩] :=
  C5_derived_equals_ship_minus_order
    [⟨some ⟨2020, 1, 1⟩, some ⟨2020, 1, 2⟩, none⟩]
    [⟨some ⟨2020, 1, 1⟩, some ⟨2020, 1, 2⟩, some 1⟩] rfl

/-- C3 counterexample: on the one-row dataset (order 2020-03-14, ship
2020-01-03), the first pass commits SWAP leaving a 71-day duration, still
above the 15-day threshold; the second pass re-selects the row and finds a
strictly smaller ORDER candidate on the swapped dates (13 days), so running
the reconciler twice does not equal running it once. -/
theorem C3_not_idempotent :
    fix_order_ship_dates [⟨some ⟨2020, 3, 14⟩, some ⟨2020, 1, 3⟩, none⟩]
        = .ok [⟨some ⟨2020, 1, 3⟩, some ⟨2020, 3, 14⟩, some 71⟩] ∧
      fix_order_ship_dates [⟨some ⟨2020, 1, 3⟩, some ⟨2020, 3, 14⟩, some 71⟩]
        = .ok [⟨some ⟨2020, 3, 1⟩, some ⟨2020, 3, 14⟩, some 13⟩] ∧
      ([⟨some ⟨2020, 1, 3⟩, some ⟨2020, 3, 14⟩, some 71⟩] : List ORow)
        ≠ [⟨some ⟨2020, 3, 1⟩, some ⟨2020, 3, 14⟩, some 13⟩] :=
  ⟨rfl, rfl, by decide⟩

/-- C3 amended: one pass of the reconciler is idempotent on every dataset
whose resulting durations all lie within [0, threshold]: the fix mask then
selects no row and a second pass returns the dataset unchanged.  (The
spec's parenthetical assumes committed durations land within the threshold,
which the committed minimum need not do; see the counterexample.) -/
theorem C3_idempotent_when_within_threshold (df df' : List ORow)
    (h : fix_order_ship_dates df = .ok df')
    (hin : ∀ r ∈ df', ∀ d, r.derived = some d → 0 ≤ d ∧ d ≤ dayThreshold) :
    fix_order_ship_dates df' = .ok df' := by
  have hder := fix_derived_inv df df' h
  have hmap : df'.map computeDerived = df' := by
    have hid : ∀ r ∈ df', computeDerived r = r :=
      fun r hr => computeDerived_id r (hder r hr)
    calc df'.map computeDerived = df'.map id := List.map_congr_left hid
    _ = df' := List.map_id df'
  unfold fix_order_ship_dates
  rw [hmap]
  apply fixRows_id
  intro r hr
  cases hd : r.derived with
  | none => simp [selectedForFix, hd]
  | some d =>
    have hbound := hin r hr d hd
    simp only [selectedForFix, hd, Bool.or_eq_false_iff,
      decide_eq_false_iff_not, not_lt]
    omega

/-- Witness for the amended C3 on a one-row dataset already within
threshold. -/
theorem C3_idempotent_witness :
    fix_order_ship_dates [⟨some ⟨2020, 1, 1⟩, some ⟨2020, 1, 2⟩, some 1⟩]
      = .ok [⟨some ⟨2020, 1, 1⟩, some ⟨2020, 1, 2⟩, some 1⟩] :=
  C3_idempotent_when_within_threshold
    [⟨some ⟨2020, 1, 1⟩, some ⟨2020, 1, 2⟩, none⟩]
    [⟨some ⟨2020, 1, 1⟩, some ⟨2020, 1, 2⟩, some 1⟩] rfl
    (by
      intro r hr d hd
      simp only [List.mem_singleton] at hr
      subst hr
      injection hd with hd
      subst hd
      exact ⟨by decide, by decide⟩)

/-- C6 counterexample: on the row (order 2021-01-05, ship 2020-12-30) the
SWAP fix wins and exchanges the two date cells wholesale, so the year
stored in the order-date cell changes from 2021 to 2020. -/
theorem C6_year_changed :
    fix_order_ship_dates [⟨some ⟨2021, 1, 5⟩, some ⟨2020, 12, 30⟩, none⟩]
        = .ok [⟨some ⟨2020, 12, 30⟩, some ⟨2021, 1, 5⟩, some 6⟩] ∧
      (ORow.mk (some ⟨2020, 12, 30⟩) (some ⟨2021, 1, 5⟩) (some 6)).order.map Date.year
        ≠ (ORow.mk (some ⟨2021, 1, 5⟩) (some ⟨2020, 12, 30⟩) none).order.map Date.year :=
  ⟨rfl, by decide⟩

/-- C6 amended: reconciliation never invents a year.  The day/month
exchange keeps each cell's year (so NONE, ORDER, SHIP and BOTH fixes
preserve both cells' years), and the SWAP fix exchanges the two cells
wholesale; hence after a successful run each row's pair of cell years is
either unchanged or transposed. -/
theorem C6_years_preserved_or_swapped (df df' : List ORow)
    (h : fix_order_ship_dates df = .ok df') :
    List.Forall₂ (fun r r' =>
      yearsOf r' = yearsOf r ∨ yearsOf r' = ((yearsOf r).2, (yearsOf r).1)) df df' := by
  apply (fix_ok_forall2 df df' h).imp
  intro a b hab
  cases hsel : selectedForFix (computeDerived a) with
  | false =>
    rw [fixOne_unselected _ _ hsel hab]
    exact Or.inl rfl
  | true =>
    obtain ⟨o, s, p, ho, hs, hb, rfl⟩ := fixOne_selected_shape _ _ hsel hab
    have ho2 : a.order = some o := ho
    have hs2 : a.ship = some s := hs
    rcases best_time_fix_shape o s p hb with hp | hp | ⟨ro, hsw, hp⟩
      | ⟨rs, hsw, hp⟩ | ⟨ro, rs, hsw1, hsw2, hp⟩
    · subst hp
      left
      simp [yearsOf, ho2, hs2]
    · subst hp
      right
      simp [yearsOf, ho2, hs2]
    · subst hp
      left
      simp [yearsOf, ho2, hs2, swap_day_month_year o ro hsw]
    · subst hp
      left
      simp [yearsOf, ho2, hs2, swap_day_month_year s rs hsw]
    · subst hp
      left
      simp [yearsOf, ho2, hs2, swap_day_month_year o ro hsw1,
        swap_day_month_year s rs hsw2]

/-- Witness for the amended C6 on a one-row dataset. -/
theorem C6_years_witness :
    List.Forall₂ (fun r r' =>
        yearsOf r' = yearsOf r ∨ yearsOf r' = ((yearsOf r).2, (yearsOf r).1))
      [⟨some ⟨2020, 1, 1⟩, some ⟨2020, 1, 2⟩, none⟩]
      [⟨some ⟨2020, 1, 1⟩, some ⟨2020, 1, 2⟩, some 1⟩] :=
  C6_years_preserved_or_swapped
    [⟨some ⟨2020, 1, 1⟩, some ⟨2020, 1, 2⟩, none⟩]
    [⟨some ⟨2020, 1, 1⟩, some ⟨2020, 1, 2⟩, some 1⟩] rfl

/-- C10 counterexample: the row (order 1725-01-01, ship 1999-01-01) has a
duration of 100076 days - representable in a pandas Timedelta (bound about
106751 days) - so it is selected, and its NONE candidate is non-negative,
yet nothing is committed: every non-negative candidate is at or above the
99999-day sentinel that best_pick starts at, so fix stays unbound and the
final match raises UnboundLocalError. -/
theorem C10_unbound_fix_counterexample :
    selectedForFix (computeDerived ⟨some ⟨1725, 1, 1⟩, some ⟨1999, 1, 1⟩, none⟩) = true ∧
      noChangeTime ⟨1725, 1, 1⟩ ⟨1999, 1, 1⟩ ≤ 106751 ∧
      _best_time_fix ⟨1725, 1, 1⟩ ⟨1999, 1, 1⟩ = .error "UnboundLocalError: fix" :=
  ⟨rfl, by decide, rfl⟩

/-- C10 amended: the NONE and SWAP candidate durations are exact negatives,
so at least one of them is always non-negative; and whenever the row's
duration is strictly between the sentinel bounds (-99999, 99999) some
if-statement runs, fix is bound, and _best_time_fix commits a candidate.
(The unbound-fix failure is reachable only for durations of 99999 days or
more, as in the counterexample.) -/
theorem C10_negation_and_commit (o s : Date)
    (h1 : -99999 < noChangeTime o s) (h2 : noChangeTime o s < 99999) :
    swapTime o s = -noChangeTime o s ∧
      (0 ≤ noChangeTime o s ∨ 0 ≤ swapTime o s) ∧
      ∃ p, _best_time_fix o s = .ok p := by
  have hsw : swapTime o s = -noChangeTime o s := by
    unfold swapTime noChangeTime dsub; ring
  refine ⟨hsw, by omega, ?_⟩
  apply best_time_fix_commits
  cases hf : (bestPickFix o s).2 with
  | some f => rfl
  | none =>
    exfalso
    have hpair : bestPickFix o s = ((bestPickFix o s).1, none) := by rw [← hf]
    have hspec := chain_none_spec _ _ _ _ _ _ hpair
    have ha := hspec.1
    have hb := hspec.2.1
    omega

/-- Witness for the amended C10 on a 19-day row. -/
theorem C10_commit_witness :
    ∃ p, _best_time_fix ⟨2020, 1, 1⟩ ⟨2020, 1, 20⟩ = .ok p :=
  (C10_negation_and_commit ⟨2020, 1, 1⟩ ⟨2020, 1, 20⟩ (by decide) (by decide)).2.2

theorem mem_inconsistentKeys_iff {V : Type} [DecidableEq V] (df : List (RRow V))
    (key : Col) (cs : List Col) (k : Option V) :
    k ∈ inconsistentKeys df key cs ↔
      k ∈ groupKeys df key ∧ ∃ c ∈ cs, 2 ≤ nuniqueDropna (groupRows df key k) c := by
  unfold inconsistentKeys isInconsistentGroup
  rw [List.mem_filter, List.any_eq_true]
  simp only [decide_eq_true_eq]
  constructor
  · rintro ⟨hmem, c, hc, hlt⟩
    exact ⟨hmem, c, hc, hlt⟩
  · rintro ⟨hmem, c, hc, hlt⟩
    exact ⟨hmem, c, hc, hlt⟩

theorem reported_inconsistent_iff {V : Type} [DecidableEq V] (df : List (RRow V))
    (key : Col) (cs : List Col) (k : Option V) :
    (∃ ks, check_order_consistency df key cs = .inconsistent ks ∧ k ∈ ks) ↔
      (k ∈ groupKeys df key ∧ ∃ c ∈ cs, 2 ≤ nuniqueDropna (groupRows df key k) c) := by
  rw [← mem_inconsistentKeys_iff]
  unfold check_order_consistency
  split_ifs with hemp
  · constructor
    · rintro ⟨ks, hks, _⟩
      exact absurd hks (by simp)
    · intro hk
      rw [List.isEmpty_iff] at hemp
      rw [hemp] at hk
      cases hk
  · constructor
    · rintro ⟨ks, hks, hmem⟩
      injection hks with hks
      rw [hks]
      exact hmem
    · intro hk
      exact ⟨_, rfl, hk⟩

/-- C7: check_order_consistency reports a key value as inconsistent exactly
when it occurs as a group key and some check column has at least two
distinct non-missing values among that group's rows (missing values are
dropped by the distinct count, so they never make a group inconsistent by
themselves). -/
theorem C7_consistency_completeness (df : List (RRow String)) (key : Col)
    (cs : List Col) (k : Option String) :
    (∃ ks, check_order_consistency df key cs = .inconsistent ks ∧ k ∈ ks) ↔
      (k ∈ groupKeys df key ∧
        ∃ c ∈ cs, 2 ≤ nuniqueDropna (groupRows df key k) c) :=
  reported_inconsistent_iff df key cs k

/-- C8: when some row's key cell is missing, the missing key is itself a
group key (the rows are not skipped), the none group consists of exactly
the rows with a missing key (not merged with any non-missing key), and the
none group is reported inconsistent under the same rule as any other
group. -/
theorem C8_missing_key_grouped (df : List (RRow String)) (key : Col) (cs : List Col)
    (h : ∃ r ∈ df, r key = none) :
    none ∈ groupKeys df key ∧
      (∀ r ∈ df, (r ∈ groupRows df key none ↔ r key = none)) ∧
      ((∃ ks, check_order_consistency df key cs = .inconsistent ks ∧ none ∈ ks) ↔
        ∃ c ∈ cs, 2 ≤ nuniqueDropna (groupRows df key none) c) := by
  obtain ⟨r0, hr0, hk0⟩ := h
  have hmem : (none : Option String) ∈ groupKeys df key := by
    unfold groupKeys
    rw [List.mem_dedup]
    exact List.mem_map.mpr ⟨r0, hr0, hk0⟩
  refine ⟨hmem, ?_, ?_⟩
  · intro r hr
    unfold groupRows
    rw [List.mem_filter]
    simp [hr]
  · rw [reported_inconsistent_iff]
    simp [hmem]

/-- Witness for C8 on a two-row frame whose second row has a missing key
and whose check column disagrees within the none group. -/
theorem C8_witness :
    (none ∈ groupKeys
        [(fun c => if c = "k" then (none : Option String) else some "u"),
         (fun c => if c = "k" then none else some "v")] "k") ∧
      (∀ r ∈ [(fun c => if c = "k" then (none : Option String) else some "u"),
              (fun c => if c = "k" then none else some "v")],
        (r ∈ groupRows
            [(fun c => if c = "k" then (none : Option String) else some "u"),
             (fun c => if c = "k" then none else some "v")] "k" none ↔
          r "k" = none)) ∧
      ((∃ ks, check_order_consistency
            [(fun c => if c = "k" then (none : Option String) else some "u"),
             (fun c => if c = "k" then none else some "v")] "k" ["a"]
            = .inconsistent ks ∧ none ∈ ks) ↔
        ∃ c ∈ ["a"], 2 ≤ nuniqueDropna (groupRows
            [(fun c => if c = "k" then (none : Option String) else some "u"),
             (fun c => if c = "k" then none else some "v")] "k" none) c) :=
  C8_missing_key_grouped _ "k" ["a"]
    ⟨(fun c => if c = "k" then none else some "u"), List.mem_cons_self _ _, rfl⟩

theorem find_dropDupFirst {V : Type} [DecidableEq V] (rels : List Col)
    (T : List (Option V)) :
    ∀ (l : List (RRow V)) (seen : List (List (Option V))), T ∉ seen →
      (dropDupFirst rels seen l).find? (fun q => decide (tupleOf q rels = T)) =
        l.find? (fun q => decide (tupleOf q rels = T)) := by
  intro l
  induction l with
  | nil => intro seen _; rfl
  | cons r rest ih =>
    intro seen hT
    unfold dropDupFirst
    by_cases hsw : tupleOf r rels ∈ seen
    · rw [if_pos hsw, ih seen hT]
      have hd : decide (tupleOf r rels = T) = false := by
        simp only [decide_eq_false_iff_not]
        intro he
        exact hT (he ▸ hsw)
      simp [List.find?_cons, hd]
    · rw [if_neg hsw]
      by_cases heq : tupleOf r rels = T
      · have hd : decide (tupleOf r rels = T) = true := by simp [heq]
        simp [List.find?_cons, hd]
      · have hd : decide (tupleOf r rels = T) = false := by simp [heq]
        simp only [List.find?_cons, hd]
        apply ih
        intro hmem
        rcases List.mem_cons.mp hmem with he | hmem2
        · exact heq he.symm
        · exact hT hmem2

theorem mergedFill_eq_firstSource {V : Type} [DecidableEq V] (df : List (RRow V))
    (target : Col) (rels : List Col) (r : RRow V) :
    mergedFillValue (lookupDf df target rels) rels target r
      = firstSourceValue df target rels r := by
  unfold mergedFillValue firstSourceValue lookupDf
  rw [find_dropDupFirst rels (tupleOf r rels) _ [] (by simp)]

theorem dropDupFirst_nil_of {V : Type} [DecidableEq V] (rels : List Col)
    (l : List (RRow V)) (h : dropDupFirst rels [] l = []) : l = [] := by
  cases l with
  | nil => rfl
  | cons r rest =>
    exfalso
    unfold dropDupFirst at h
    rw [if_neg (by simp)] at h
    exact List.cons_ne_nil _ _ h

/-- C9: fill_blank_relative is a frame-preserving partial fill: reading any
cell of the result, rows that are not fillable (target present, or some
relative column missing) and columns other than the target are unchanged;
the target cell of a fillable row becomes the target value of the first
source row (target present, all relatives present) with the same relative
tuple, and stays missing when no such source row exists. -/
theorem C9_fill_frame_effect (df : List (RRow String)) (target : Col)
    (rels : List Col) (i : Nat) (c : Col) :
    ((fill_blank_relative df target rels)[i]?).map (fun r => r c) =
      (df[i]?).map (fun r =>
        if toFillMask r target rels = true ∧ c = target then
          firstSourceValue df target rels r
        else r c) := by
  unfold fill_blank_relative
  by_cases hany : (df.any fun r => toFillMask r target rels) = true
  · rw [if_neg (by simp [hany])]
    by_cases hemp : (lookupDf df target rels).isEmpty = true
    · rw [if_pos hemp]
      have hfilter :
          df.filter (fun q => !(blankAt q target) && relPresent q rels) = [] :=
        dropDupFirst_nil_of rels _ (List.isEmpty_iff.mp hemp)
      cases hi : df[i]? with
      | none => rfl
      | some r =>
        simp only [Option.map_some']
        split_ifs with hcond
        · obtain ⟨hfill, rfl⟩ := hcond
          have htgt : r c = none := by
            have hb : blankAt r c = true := (Bool.and_eq_true _ _ ▸ hfill).1
            exact Option.isNone_iff_eq_none.mp hb
          simp [firstSourceValue, hfilter, htgt]
        · rfl
    · rw [if_neg hemp, List.getElem?_map]
      cases hi : df[i]? with
      | none => rfl
      | some r =>
        simp only [Option.map_some']
        by_cases hfill : toFillMask r target rels = true
        · rw [if_pos hfill]
          by_cases hct : c = target
          · subst hct
            rw [if_pos ⟨hfill, rfl⟩]
            simp [setCell, mergedFill_eq_firstSource]
          · rw [if_neg (fun hc => hct hc.2)]
            simp [setCell, hct]
        · rw [if_neg hfill, if_neg (fun hc => hfill hc.1)]
  · have hfalse : (df.any fun r => toFillMask r target rels) = false :=
      Bool.not_eq_true _ ▸ hany
    rw [if_pos (by simp [hfalse])]
    cases hi : df[i]? with
    | none => rfl
    | some r =>
      have hrmem : r ∈ df := by
        obtain ⟨hlt, hr⟩ := List.getElem?_eq_some.mp hi
        exact hr ▸ List.getElem_mem hlt
      have hnofill := List.any_eq_false.mp hfalse r hrmem
      simp only [Option.map_some']
      rw [if_neg (fun hc => hnofill hc.1)]
